import Mathlib

/-
  Verification development for the network turn-synchronization layer of the
  dexterws-chess-gui repository (src/main.rs). The data model and operations
  below are shallow embeddings of the Rust source; the external collaborators
  (the `chess` rules engine and the `chess_networking` wire schemas) are not
  part of the repository's sources and are modelled from the specification's
  collaborator contracts, as marked on each such definition.
-/

namespace DexChess

/-- Color enum of the external rules-engine collaborator (`chess::Color`);
`main.rs` only uses White and Black. -/
inductive ChessColor
  | White
  | Black
  deriving DecidableEq

/-- Board square of the external rules engine (`chess::Position`); `main.rs`
reads and builds only the `x`/`y` fields (`usize`, modelled as `Nat`). -/
structure Position where
  x : Nat
  y : Nat
  deriving DecidableEq

/-- Piece kinds of the external rules engine (`chess::PieceType`); `main.rs`
constructs Queen/Rook/Bishop/Knight for promotion. -/
inductive PieceType
  | King
  | Queen
  | Rook
  | Bishop
  | Knight
  | Pawn
  deriving DecidableEq

/-- Draw kinds of the external rules engine (`chess::DrawType`), matched in the
`Phase::End` branch of `MainState::update`. -/
inductive DrawType
  | Stalemate
  | ThreefoldRepetition
  | FiftyMoveRule
  deriving DecidableEq

/-- Game status of the external rules engine (`chess::Status`), as consumed by
`main.rs` (the `AwaitingPromotion` check and the `Checkmate`/`Draw` end states). -/
inductive Status
  | InProgress
  | AwaitingPromotion
  | Checkmate (c : ChessColor)
  | Draw (d : DrawType)
  deriving DecidableEq

/-- Result of `Chess::move_piece` (`chess::ValidationResult`); `main.rs` matches
`Valid(status)` and treats every other constructor alike (the `_` arm), which is
modelled as the single constructor `Invalid`. -/
inductive ValidationResult
  | Valid (s : Status)
  | Invalid
  deriving DecidableEq

/-- Move record of the external rules engine (`chess::Move`); `main.rs` reads
only its `from` and `to` squares (named `from_`/`to_` here because `from` is
reserved in Lean). -/
structure ChessMove where
  from_ : Position
  to_ : Position
  deriving DecidableEq

/-- Promotion piece of the wire protocol (`chess_networking::PromotionPiece`). -/
inductive PromotionPiece
  | Queen
  | Rook
  | Bishop
  | Knight
  deriving DecidableEq

/-- End-state tag of the wire protocol (`chess_networking::GameState`);
`main.rs` constructs exactly `CheckMate` and `Draw`. -/
inductive GameState
  | CheckMate
  | Draw
  deriving DecidableEq

/-- Wire `Start` packet (`chess_networking::Start`). -/
structure StartData where
  name : Option String
  is_white : Bool
  fen : Option String
  time : Option Nat
  inc : Option Nat
  deriving DecidableEq

/-- Wire `Move` packet (`chess_networking::Move`); the coordinate pairs are `u8`
on the wire, modelled as naturals (the modelled schema parser enforces the
`< 256` bound). -/
structure NetMove where
  fromSq : Nat × Nat
  toSq : Nat × Nat
  promotion : Option PromotionPiece
  forfeit : Bool
  offer_draw : Bool
  deriving DecidableEq

/-- Wire `Ack` packet (`chess_networking::Ack`). -/
structure AckData where
  ok : Bool
  end_state : Option GameState
  deriving DecidableEq

/-- The tagged union `PacketType` of `main.rs`. -/
inductive PacketType
  | Start (s : StartData)
  | Move (m : NetMove)
  | Ack (a : AckData)
  deriving DecidableEq

/-- Session mode (`GameType` in `main.rs`). -/
inductive GameType
  | Local
  | Host (addr : String)
  | Client (addr : String)
  deriving DecidableEq

/-- Participant (the `Player` struct of `main.rs`); `local` is spelled `local_`
because `local` is reserved in Lean. -/
structure Player where
  color : ChessColor
  name : Option String
  local_ : Bool
  deriving DecidableEq

/-- The `Players` pair of `main.rs`. -/
structure Players where
  black : Player
  white : Player
  deriving DecidableEq

/-- Direct translation of `Players::get_player`. -/
def Players.get_player (ps : Players) (color : ChessColor) : Player :=
  if color = ChessColor.White then ps.white else ps.black

/-- The `Start` packet both sides send in `Network::init` (the host's reply and
the client's opener are syntactically identical in the source):
`name: None, is_white: true, fen: None, time: None, inc: None`. -/
def initStart : StartData :=
  { name := none, is_white := true, fen := none, time := none, inc := none }

/-- Host branch of `Network::init`: given the `Start` packet received from the
peer, the host fixes itself White/local and the peer Black/remote, storing the
peer's name on the black player. -/
def hostNegotiate (start : StartData) : Players :=
  { white := { color := ChessColor.White, name := none, local_ := true }
    black := { color := ChessColor.Black, name := start.name, local_ := false } }

/-- Client branch of `Network::init`: given the listener's `Start` reply, the
client takes the color not claimed by the reply's `is_white` flag (and, as the
source does, stores the reply's name on the local player). -/
def clientNegotiate (start : StartData) : Players :=
  if start.is_white then
    { white := { color := ChessColor.White, name := none, local_ := false }
      black := { color := ChessColor.Black, name := start.name, local_ := true } }
  else
    { white := { color := ChessColor.White, name := start.name, local_ := true }
      black := { color := ChessColor.Black, name := none, local_ := false } }

/-- The `PlayerHandler` of `main.rs`; the live `Network` value (socket, shared
queue, thread handle) is modelled by its presence flag, with the queue contents
supplied as per-tick input to the update loop. -/
structure PlayerHandler where
  game_type : GameType
  players : Players
  network : Bool
  deriving DecidableEq

/-- Translation of `PlayerHandler::new`: `Local` mode wires both participants
local with no network; `Host`/`Client` run `Network::init`, whose received
`Start` packet is the `negStart` argument. -/
def PlayerHandler.new (gt : GameType) (negStart : StartData) : PlayerHandler :=
  match gt with
  | GameType.Local =>
      { game_type := gt
        players :=
          { white := { color := ChessColor.White, name := none, local_ := true }
            black := { color := ChessColor.Black, name := none, local_ := true } }
        network := false }
  | GameType.Host _ =>
      { game_type := gt, players := hostNegotiate negStart, network := true }
  | GameType.Client _ =>
      { game_type := gt, players := clientNegotiate negStart, network := true }

/-- Direct translation of `PlayerHandler::can_move`. -/
def PlayerHandler.can_move (ph : PlayerHandler) (color : ChessColor) : Bool :=
  match ph.game_type with
  | GameType.Local => true
  | _ => (ph.players.get_player color).local_

/-- Direct translation of `PlayerHandler::both_local`. -/
def PlayerHandler.both_local (ph : PlayerHandler) : Bool :=
  ph.players.black.local_ && ph.players.white.local_

/-- Direct translation of `PlayerHandler::one_local`. -/
def PlayerHandler.one_local (ph : PlayerHandler) : Option ChessColor :=
  if ph.players.black.local_ then some ChessColor.Black
  else if ph.players.white.local_ then some ChessColor.White
  else none

/-- The `MoveKind` union of `main.rs`. -/
inductive MoveKind
  | Builtin (m : ChessMove)
  | Network (m : NetMove)
  deriving DecidableEq

/-- Translation of `MoveKind::to` (the `as usize` casts on `u8` wire
coordinates are lossless and become the identity). -/
def MoveKind.getTo : MoveKind → Position
  | MoveKind.Builtin m => m.to_
  | MoveKind.Network m => { x := m.toSq.1, y := m.toSq.2 }

/-- Translation of `MoveKind::from`. -/
def MoveKind.getFrom : MoveKind → Position
  | MoveKind.Builtin m => m.from_
  | MoveKind.Network m => { x := m.fromSq.1, y := m.fromSq.2 }

/-- Translation of `MoveKind::promotion`: locally-authored (`Builtin`) moves
always promote to Queen (see the comment in the source); network moves use the
packet's promotion field, defaulting to Queen when absent. -/
def MoveKind.promotion : MoveKind → PieceType
  | MoveKind.Builtin _ => PieceType.Queen
  | MoveKind.Network m =>
      match m.promotion with
      | some PromotionPiece.Queen => PieceType.Queen
      | some PromotionPiece.Rook => PieceType.Rook
      | some PromotionPiece.Bishop => PieceType.Bishop
      | some PromotionPiece.Knight => PieceType.Knight
      | none => PieceType.Queen

/-- Translation of `impl TryFrom<&[u8]> for PacketType`: try the `Start`
schema, then `Move`, then `Ack`, returning the first success; `none` models
`Err(())`. The three schema parsers themselves live in the external
`chess_networking` crate and are passed as parameters. -/
def decodePacket (ps : List Nat → Option StartData)
    (pm : List Nat → Option NetMove) (pa : List Nat → Option AckData)
    (data : List Nat) : Option PacketType :=
  match ps data with
  | some s => some (PacketType.Start s)
  | none =>
      match pm data with
      | some m => some (PacketType.Move m)
      | none =>
          match pa data with
          | some a => some (PacketType.Ack a)
          | none => none

/-- Result of one blocking `stream.read` in `Network::spawn_thread`. -/
inductive ReadResult
  | ok (data : List Nat)
  | err
  deriving DecidableEq

/-- Observable outcome of one iteration of the background receive loop: either
the thread panicked (the `unwrap` on a failed decode), or control reached the
next iteration, having pushed at most one packet onto the shared queue. -/
inductive LoopOutcome
  | panicked
  | continued (pushed : Option PacketType)
  deriving DecidableEq

/-- An iteration stops the receive thread only by panicking: the loop body of
`spawn_thread` contains no `break` or `return`. -/
def LoopOutcome.terminates : LoopOutcome → Bool
  | LoopOutcome.panicked => true
  | LoopOutcome.continued _ => false

/-- One iteration of the `loop` in `Network::spawn_thread`: on `Ok(size)` the
bytes are decoded with `PacketType::try_from(..).unwrap()` (panicking on decode
failure) and pushed onto the queue; on `Err` the `if let` falls through and the
loop immediately issues the next read. -/
def recvIter (decode : List Nat → Option PacketType) : ReadResult → LoopOutcome
  | ReadResult.err => LoopOutcome.continued none
  | ReadResult.ok data =>
      match decode data with
      | none => LoopOutcome.panicked
      | some p => LoopOutcome.continued (some p)

/-- Modelled from the spec: boolean field primitive of the external wire codec
(`chess_networking` via `rmp_serde`, which is not part of this repository's
sources); the spec (sections 4.1 and 6) describes a compact self-describing
tagless encoding, modelled here over flat numeric tokens. -/
def pBool : List Nat → Option (Bool × List Nat)
  | 0 :: r => some (false, r)
  | 1 :: r => some (true, r)
  | _ => none

/-- Modelled from the spec: bare natural field primitive of the external codec. -/
def pNat : List Nat → Option (Nat × List Nat)
  | n :: r => some (n, r)
  | [] => none

/-- Modelled from the spec: a single `u8` wire byte of the external codec. -/
def pU8 : List Nat → Option (Nat × List Nat)
  | n :: r => if n < 256 then some (n, r) else none
  | [] => none

/-- Modelled from the spec: length-prefixed string primitive of the external
codec. -/
def pString : List Nat → Option (String × List Nat)
  | n :: r =>
      if n ≤ r.length then
        some (String.mk ((r.take n).map Char.ofNat), r.drop n)
      else none
  | [] => none

/-- Modelled from the spec: optional-field primitive of the external codec. -/
def pOpt {α : Type} (p : List Nat → Option (α × List Nat)) :
    List Nat → Option (Option α × List Nat)
  | 0 :: r => some (none, r)
  | 1 :: r =>
      match p r with
      | some (a, r') => some (some a, r')
      | none => none
  | _ => none

/-- Modelled from the spec: promotion-piece code of the external codec. -/
def pPromo : List Nat → Option (PromotionPiece × List Nat)
  | 0 :: r => some (PromotionPiece.Queen, r)
  | 1 :: r => some (PromotionPiece.Rook, r)
  | 2 :: r => some (PromotionPiece.Bishop, r)
  | 3 :: r => some (PromotionPiece.Knight, r)
  | _ => none

/-- Modelled from the spec: end-state code of the external codec. -/
def pGameState : List Nat → Option (GameState × List Nat)
  | 0 :: r => some (GameState.CheckMate, r)
  | 1 :: r => some (GameState.Draw, r)
  | _ => none

/-- Modelled from the spec: the `Start` schema parser of the external
`chess_networking` crate. The leading token is the schema's shape fingerprint,
standing for the distinct field-key shape each schema has in the tagless
map-like wire encoding of section 4.1; a buffer that matches no schema's shape
(such as the empty buffer a zero-length read produces) is rejected, which is
the spec's `UnknownPacketError` case. -/
def startParse (data : List Nat) : Option StartData :=
  match data with
  | 0 :: r => do
      let (nm, r) ← pOpt pString r
      let (isw, r) ← pBool r
      let (fenv, r) ← pOpt pString r
      let (tm, r) ← pOpt pNat r
      let (ic, r) ← pOpt pNat r
      if r = [] then
        some { name := nm, is_white := isw, fen := fenv, time := tm, inc := ic }
      else none
  | _ => none

/-- Modelled from the spec: the `Move` schema parser of the external codec
(shape fingerprint 1). -/
def moveParse (data : List Nat) : Option NetMove :=
  match data with
  | 1 :: r => do
      let (fx, r) ← pU8 r
      let (fy, r) ← pU8 r
      let (tx, r) ← pU8 r
      let (ty, r) ← pU8 r
      let (promo, r) ← pOpt pPromo r
      let (ff, r) ← pBool r
      let (od, r) ← pBool r
      if r = [] then
        some { fromSq := (fx, fy), toSq := (tx, ty), promotion := promo,
               forfeit := ff, offer_draw := od }
      else none
  | _ => none

/-- Modelled from the spec: the `Ack` schema parser of the external codec
(shape fingerprint 2). -/
def ackParse (data : List Nat) : Option AckData :=
  match data with
  | 2 :: r => do
      let (okv, r) ← pBool r
      let (es, r) ← pOpt pGameState r
      if r = [] then some { ok := okv, end_state := es } else none
  | _ => none

/-- The concrete decoder: `main.rs`'s `TryFrom` chain instantiated with the
modelled schema parsers. -/
def decodeModelled : List Nat → Option PacketType :=
  decodePacket startParse moveParse ackParse

/-- Modelled from the spec: the external rules-engine collaborator (the `chess`
crate, absent from this repository's sources), with exactly the operations
`main.rs` calls, following the section 6 contract: `move_piece` returns the
updated board and a validation result, `promote_piece` completes a pending
promotion (the `Option Status` models the `unwrap` at the call site),
`turn`/`status` are field reads, `new` is `Chess::new`, and
`generate_valid_moves` is the per-square legal-move table
(`[Vec<Move>; 64]`, indexed by `x + y * 8`). Theorems quantify over
implementations of this interface. -/
structure Engine (B : Type) where
  new : B
  turn : B → ChessColor
  status : B → Status
  move_piece : B → Position → Position → B × ValidationResult
  promote_piece : B → PieceType → B × Option Status
  generate_valid_moves : B → Nat → List ChessMove

/-- The `Phase` enum of `main.rs`. -/
inductive Phase
  | Move
  | Validate (mv : MoveKind)
  | End (s : Status)

/-- The coordinator-relevant fields of `MainState` (textures and meshes are
pure view data and carry no game state). `current_moves` is the cached
`[Vec<Move>; 64]` table as a function from flattened square index, and
`text_prompt` keeps only the prompt's text. -/
structure MainState (B : Type) where
  board : B
  current_moves : Option (Nat → List ChessMove)
  selected_square : Option (Nat × Nat)
  text_prompt : Option String
  player_handler : PlayerHandler
  phase : Phase

/-- Per-tick environment input: the mouse/keyboard state read from `ggez`, the
head of the inbound packet queue (fed by the receive thread and popped by
`Network::get_packet`), and the `Start` packet consumed if `Network::init` runs
this tick (rematch). `clicked` is the board coordinate computed by
`get_board_coordinate` from the mouse position, before the `reverse`
adjustment. -/
structure Input where
  mouse_pressed : Bool
  clicked : Option (Nat × Nat)
  net_packet : Option PacketType
  space_pressed : Bool
  neg_start : StartData

/-- Side effects of one tick: the packets written to the socket, and whether
`Network::init` (the session negotiator) ran. -/
structure Output where
  sent : List PacketType
  negotiated : Bool
  deriving DecidableEq

/-- Direct translation of `MainState::should_reverse`. -/
def should_reverse {B : Type} (E : Engine B) (s : MainState B) : Bool :=
  (decide (E.turn s.board = ChessColor.White) && s.player_handler.both_local)
    || (match s.player_handler.one_local with
        | some c => decide (c = ChessColor.White)
        | none => false)

/-- The `reverse` adjustment applied to a clicked board coordinate in
`MainState::client_move` (`clicked.1 = 7 - clicked.1`). -/
def adjustClick {B : Type} (E : Engine B) (s : MainState B) (c0 : Nat × Nat) :
    Nat × Nat :=
  if should_reverse E s then (c0.1, 7 - c0.2) else c0

/-- Translation of `MainState::client_move`; the `ggez` mouse reads become
`Input` fields. `none` models the panic of the `unwrap` inside `get_moves`
when `current_moves` is empty while a square is selected. -/
def client_move {B : Type} (E : Engine B) (s : MainState B) (inp : Input) :
    Option (MainState B) :=
  if s.player_handler.can_move (E.turn s.board) = false then some s
  else if inp.mouse_pressed = false then some s
  else
    match inp.clicked with
    | none => some s
    | some c0 =>
        match s.selected_square with
        | some current =>
            if current = adjustClick E s c0 then
              some { s with selected_square := none }
            else
              match s.current_moves with
              | none => none
              | some cm =>
                  match (cm (current.1 + current.2 * 8)).find?
                      (fun mv =>
                        decide ((mv.to_.x % 256, mv.to_.y % 256) = adjustClick E s c0)) with
                  | some mv =>
                      some { s with phase := Phase.Validate (MoveKind.Builtin mv) }
                  | none => some { s with selected_square := some (adjustClick E s c0) }
        | none => some { s with selected_square := some (adjustClick E s c0) }

/-- Translation of `MainState::network_move`: with a network, pop one packet; a
`Move` packet becomes a `Validate(Network ..)` candidate and every other packet
is dropped. -/
def network_move {B : Type} (s : MainState B) (inp : Input) : MainState B :=
  if s.player_handler.network then
    match inp.net_packet with
    | some (PacketType.Move mv) =>
        { s with phase := Phase.Validate (MoveKind.Network mv) }
    | _ => s
  else s

/-- End-state mapping inside `MainState::client_validate`
(`chess::Status` to the wire `GameState`). -/
def endStateOf : Status → Option GameState
  | Status.Checkmate _ => some GameState.CheckMate
  | Status.Draw _ => some GameState.Draw
  | _ => none

/-- The `Move` packet `client_validate` sends for an applied local move: note
the hardcoded `Some(Queen)` promotion and the `as u8` truncations. -/
def movePacketOf (mv : MoveKind) : PacketType :=
  PacketType.Move
    { fromSq := (mv.getFrom.x % 256, mv.getFrom.y % 256)
      toSq := (mv.getTo.x % 256, mv.getTo.y % 256)
      promotion := some PromotionPiece.Queen
      forfeit := false
      offer_draw := false }

/-- The promotion sub-step of `client_validate`: if the post-move board status
is `AwaitingPromotion`, run `promote_piece` with the candidate's promotion
piece (the `unwrap` at the call site is modelled by `none`); otherwise keep the
board and the status returned by `move_piece`. -/
def promoStep {B : Type} (E : Engine B) (b1 : B) (status0 : Status)
    (mv : MoveKind) : Option (B × Status) :=
  if E.status b1 = Status.AwaitingPromotion then
    match E.promote_piece b1 mv.promotion with
    | (b2, some st) => some (b2, st)
    | (_, none) => none
  else some (b1, status0)

/-- Translation of `MainState::client_validate`; the returned list holds the
packets written via `send_packet`, in order, and `none` models the `unwrap`
panic when `promote_piece` fails. `current_turn` is read before the move is
applied, so the comparison against `one_local` uses the color that just moved. -/
def client_validate {B : Type} (E : Engine B) (s : MainState B) (mv : MoveKind) :
    Option (MainState B × List PacketType) :=
  match E.move_piece s.board mv.getFrom mv.getTo with
  | (b1, ValidationResult.Valid status0) =>
      match promoStep E b1 status0 mv with
      | none => none
      | some (b2, status) =>
          some
            ({ s with
                board := b2
                phase :=
                  if (endStateOf status).isSome then Phase.End status else Phase.Move
                selected_square := none
                current_moves := none },
              if s.player_handler.network then
                if s.player_handler.one_local = some (E.turn s.board) then
                  [movePacketOf mv]
                else [PacketType.Ack { ok := true, end_state := endStateOf status }]
              else [])
  | (b1, ValidationResult.Invalid) =>
      some
        ({ s with board := b1, phase := Phase.Move, selected_square := none },
          if s.player_handler.network then
            [PacketType.Ack { ok := false, end_state := none }]
          else [])

/-- Text set by the `Phase::End` branch of `MainState::update` (kept as the
prompt string; statuses other than checkmate/draw leave the prompt alone). -/
def endPrompt (status : Status) (turn : ChessColor) (old : Option String) :
    Option String :=
  match status with
  | Status.Checkmate _ =>
      some (if turn = ChessColor.White then "Black wins" else "White wins")
  | Status.Draw DrawType.Stalemate => some "Stalemate"
  | Status.Draw DrawType.ThreefoldRepetition => some "Threefold Repetition"
  | Status.Draw DrawType.FiftyMoveRule => some "Fifty Move Rule"
  | _ => old

/-- The `Phase` dispatch of `MainState::update` (before the tail
`current_moves` refresh). On rematch (`Phase::End` with space pressed and a
network present) the source calls `network.init()` and DISCARDS the returned
`Players`, so `player_handler` is unchanged; the `Start` packet `init` sends
and the fact that negotiation ran are recorded in the output. -/
def updateCore {B : Type} (E : Engine B) (s : MainState B) (inp : Input) :
    Option (MainState B × Output) :=
  match s.phase with
  | Phase.Move =>
      if s.player_handler.both_local = true then
        (client_move E s inp).map (fun s' => (s', { sent := [], negotiated := false }))
      else if s.player_handler.one_local = some (E.turn s.board) then
        (client_move E s inp).map (fun s' => (s', { sent := [], negotiated := false }))
      else some (network_move s inp, { sent := [], negotiated := false })
  | Phase.Validate mv =>
      (client_validate E s mv).map
        (fun p => (p.1, { sent := p.2, negotiated := false }))
  | Phase.End status =>
      if inp.space_pressed = true then
        some
          ({ s with
              text_prompt := none
              board := E.new
              current_moves := none
              phase := Phase.Move },
            if s.player_handler.network then
              { sent := [PacketType.Start initStart], negotiated := true }
            else { sent := [], negotiated := false })
      else
        some
          ({ s with
              text_prompt := endPrompt status (E.turn s.board) s.text_prompt },
            { sent := [], negotiated := false })

/-- The tail of `MainState::update`: if `current_moves` is `None`, recompute it
from the rules engine. -/
def refreshMoves {B : Type} (E : Engine B) (s : MainState B) : MainState B :=
  if s.current_moves.isNone then
    { s with current_moves := some (E.generate_valid_moves s.board) }
  else s

/-- One tick of `MainState::update`: the phase dispatch followed by the
`current_moves` refresh. -/
def update {B : Type} (E : Engine B) (s : MainState B) (inp : Input) :
    Option (MainState B × Output) :=
  (updateCore E s inp).map (fun p => (refreshMoves E p.1, p.2))

/-- Translation of `MainState::new` (graphics resources dropped): a fresh
`Chess::new` board, nothing cached or selected, `PlayerHandler::new`, and
`Phase::Move`. -/
def initialState {B : Type} (E : Engine B) (gt : GameType)
    (negStart : StartData) : MainState B :=
  { board := E.new
    current_moves := none
    selected_square := none
    text_prompt := none
    player_handler := PlayerHandler.new gt negStart
    phase := Phase.Move }

/-- States of the update loop reachable from a fresh `MainState` through
non-panicking ticks. -/
inductive Reachable {B : Type} (E : Engine B) : MainState B → Prop
  | init (gt : GameType) (negStart : StartData) :
      Reachable E (initialState E gt negStart)
  | step {s s' : MainState B} {inp : Input} {out : Output} :
      Reachable E s → update E s inp = some (s', out) → Reachable E s'

/-- Concrete legal move used by the witness fixtures. -/
def mv0 : ChessMove := { from_ := { x := 0, y := 7 }, to_ := { x := 0, y := 5 } }

/-- Concrete wire move used by the witness fixtures. -/
def nm0 : NetMove :=
  { fromSq := (1, 0), toSq := (1, 2), promotion := none, forfeit := false,
    offer_draw := false }

/-- Small concrete rules-engine instance used to evaluate the theorems at
concrete inputs: the board is a ply counter, every move is accepted, and White
moves on even plies. -/
def toyEngine : Engine Nat :=
  { new := 0
    turn := fun b => if b % 2 = 0 then ChessColor.White else ChessColor.Black
    status := fun _ => Status.InProgress
    move_piece := fun b _ _ => (b + 1, ValidationResult.Valid Status.InProgress)
    promote_piece := fun b _ => (b, some Status.InProgress)
    generate_valid_moves := fun _ _ => [mv0] }

/-- Concrete engine instance that rejects every move without touching the
board. -/
def rejectEngine : Engine Nat :=
  { toyEngine with move_piece := fun b _ _ => (b, ValidationResult.Invalid) }

/-- Concrete networked Host-mode state used to evaluate the theorems. -/
def sampleState : MainState Nat :=
  { board := 0
    current_moves := none
    selected_square := none
    text_prompt := none
    player_handler := PlayerHandler.new (GameType.Host "a") initStart
    phase := Phase.Move }

/-- C7: the decoder attempts the three wire schemas in the fixed order Start,
then Move, then Ack, returns the first schema that parses, and fails exactly
when none of the three parses the buffer. -/
theorem c7_decode_order_first_success (ps : List Nat → Option StartData)
    (pm : List Nat → Option NetMove) (pa : List Nat → Option AckData)
    (data : List Nat) :
    (∀ st, ps data = some st →
      decodePacket ps pm pa data = some (PacketType.Start st)) ∧
    (ps data = none → ∀ m, pm data = some m →
      decodePacket ps pm pa data = some (PacketType.Move m)) ∧
    (ps data = none → pm data = none → ∀ a, pa data = some a →
      decodePacket ps pm pa data = some (PacketType.Ack a)) ∧
    (decodePacket ps pm pa data = none ↔
      ps data = none ∧ pm data = none ∧ pa data = none) := by
  rcases hps : ps data with _ | st <;> rcases hpm : pm data with _ | m <;>
    rcases hpa : pa data with _ | a <;>
      simp [decodePacket, hps, hpm, hpa]

/-- C7 witness: the modelled decoder on a concrete buffer that only the `Move`
schema accepts, via the second conjunct of the order theorem. -/
theorem c7_witness :
    startParse [1, 1, 0, 1, 2, 0, 0, 0] = none ∧
    moveParse [1, 1, 0, 1, 2, 0, 0, 0] = some nm0 ∧
    decodeModelled [1, 1, 0, 1, 2, 0, 0, 0] = some (PacketType.Move nm0) :=
  ⟨by decide, by decide,
    (c7_decode_order_first_success startParse moveParse ackParse
        [1, 1, 0, 1, 2, 0, 0, 0]).2.1 (by decide) nm0 (by decide)⟩

/-- C1 counterexample: a successful read whose bytes match no schema (here the
empty buffer, exactly what a zero-length read from a closed peer hands to
`PacketType::try_from`) makes the receive-loop iteration panic — the `unwrap`
in `Network::spawn_thread` — contradicting the claim that the receive loop
never panics on undecodable bytes. -/
theorem c1_undecodable_bytes_panic_receive_loop :
    decodeModelled [] = none ∧
    recvIter decodeModelled (ReadResult.ok []) = LoopOutcome.panicked := by
  constructor <;> decide

/-- C1 (amended): a remote move that decodes but is rejected by the rules
engine — which, per the section 6 collaborator contract, leaves the board
unchanged on rejection — is discarded without any panic in validation: the
board is unchanged, the phase returns to awaiting input, and the rejection is
acknowledged exactly when a peer exists. -/
theorem c1_rejected_move_leaves_state_unchanged {B : Type} (E : Engine B)
    (s : MainState B) (mv : MoveKind)
    (hrej : E.move_piece s.board mv.getFrom mv.getTo =
      (s.board, ValidationResult.Invalid)) :
    client_validate E s mv =
      some ({ s with phase := Phase.Move, selected_square := none },
        if s.player_handler.network then
          [PacketType.Ack { ok := false, end_state := none }]
        else []) := by
  simp [client_validate, hrej]

/-- C1 witness: the amended rejection theorem evaluated on a concrete
networked state and the rejecting engine. -/
theorem c1_rejected_move_witness :
    rejectEngine.move_piece sampleState.board (MoveKind.Network nm0).getFrom
        (MoveKind.Network nm0).getTo =
      (sampleState.board, ValidationResult.Invalid) ∧
    client_validate rejectEngine sampleState (MoveKind.Network nm0) =
      some ({ sampleState with phase := Phase.Move, selected_square := none },
        [PacketType.Ack { ok := false, end_state := none }]) :=
  ⟨rfl,
    c1_rejected_move_leaves_state_unchanged rejectEngine sampleState
      (MoveKind.Network nm0) rfl⟩

/-- C2 counterexample: after a read error the receive loop does NOT terminate —
the `if let Ok` in `spawn_thread` simply falls through, nothing is appended,
and the loop immediately issues the next read (an unbounded retry), where the
claim says the loop terminates on a read error and never retries. -/
theorem c2_read_error_loop_continues :
    recvIter decodeModelled ReadResult.err = LoopOutcome.continued none ∧
    (recvIter decodeModelled ReadResult.err).terminates = false := by
  constructor <;> rfl

/-- C2 (amended): an iteration of the receive loop terminates the thread (by
panicking) exactly when a read succeeds and its bytes decode to no schema; a
read error is silently skipped — nothing is appended and the loop retries the
read. -/
theorem c2_loop_termination_characterization
    (decode : List Nat → Option PacketType) (r : ReadResult) :
    ((recvIter decode r).terminates = true ↔
      ∃ data, r = ReadResult.ok data ∧ decode data = none) ∧
    recvIter decode ReadResult.err = LoopOutcome.continued none := by
  constructor
  · cases r with
    | err => simp [recvIter, LoopOutcome.terminates]
    | ok data =>
        cases h : decode data <;>
          simp [recvIter, h, LoopOutcome.terminates]
  · rfl

/-- C2 witness: the characterization evaluated at the modelled decoder, on the
undecodable empty read (loop terminates) and on a read error (loop continues). -/
theorem c2_witness :
    (recvIter decodeModelled (ReadResult.ok [])).terminates = true ∧
    recvIter decodeModelled ReadResult.err = LoopOutcome.continued none :=
  ⟨(c2_loop_termination_characterization decodeModelled
        (ReadResult.ok [])).1.mpr ⟨[], rfl, by decide⟩,
    (c2_loop_termination_characterization decodeModelled ReadResult.err).2⟩

/-- C4: negotiation fixes the Host as White (first color) local with the peer
Black remote, and gives the Client the color not claimed by the reply's
`is_white` flag: reply claims White → the client is Black/local with White
remote; otherwise the client is White/local with Black remote. -/
theorem c4_negotiation_color_assignment (recv : StartData) :
    ((hostNegotiate recv).get_player ChessColor.White).local_ = true ∧
    ((hostNegotiate recv).get_player ChessColor.White).color = ChessColor.White ∧
    ((hostNegotiate recv).get_player ChessColor.Black).local_ = false ∧
    ((hostNegotiate recv).get_player ChessColor.Black).color = ChessColor.Black ∧
    (recv.is_white = true →
      ((clientNegotiate recv).get_player ChessColor.Black).local_ = true ∧
      ((clientNegotiate recv).get_player ChessColor.White).local_ = false) ∧
    (recv.is_white = false →
      ((clientNegotiate recv).get_player ChessColor.White).local_ = true ∧
      ((clientNegotiate recv).get_player ChessColor.Black).local_ = false) := by
  obtain ⟨nm, iw, fenv, tm, ic⟩ := recv
  cases iw <;>
    simp [hostNegotiate, clientNegotiate, Players.get_player]

/-- C4 witness: the assignment theorem evaluated on a concrete received
`Start` packet whose flag claims White. -/
theorem c4_witness :
    initStart.is_white = true ∧
    ((hostNegotiate initStart).get_player ChessColor.White).local_ = true ∧
    ((clientNegotiate initStart).get_player ChessColor.Black).local_ = true :=
  ⟨rfl, (c4_negotiation_color_assignment initStart).1,
    ((c4_negotiation_color_assignment initStart).2.2.2.2.1 rfl).1⟩

/-- C10: the `Players` record the Host side of negotiation produces depends
only on the received `Start` packet's `name` field; in particular it is
independent of the packet's `is_white` flag. -/
theorem c10_host_players_independent_of_flag (s1 s2 : StartData)
    (h : s1.name = s2.name) : hostNegotiate s1 = hostNegotiate s2 := by
  simp [hostNegotiate, h]

/-- C10 witness: two received `Start` packets differing only in the `is_white`
flag yield the same Host-side `Players`. -/
theorem c10_witness :
    ({ initStart with is_white := false } : StartData).name = initStart.name ∧
    hostNegotiate { initStart with is_white := false } =
      hostNegotiate initStart :=
  ⟨rfl, c10_host_players_independent_of_flag _ _ rfl⟩

/-- Helper: when the post-move status awaits a promotion and the promotion
sub-step succeeds, the resulting board is the one `promote_piece` produced for
the candidate's promotion piece. -/
theorem promoStep_awaiting {B : Type} (E : Engine B) (b1 : B) (st0 : Status)
    (mv : MoveKind) (b2 : B) (status : Status)
    (hpr : E.status b1 = Status.AwaitingPromotion)
    (h : promoStep E b1 st0 mv = some (b2, status)) :
    (E.promote_piece b1 mv.promotion).1 = b2 := by
  unfold promoStep at h
  rw [if_pos hpr] at h
  rcases hpp : E.promote_piece b1 mv.promotion with ⟨b2', os⟩
  rw [hpp] at h
  cases os <;> simp_all

/-- C5: after a successful move application in a networked session, the
process sends exactly one `Move` packet (and no `Ack`) when the color that
just moved is the sole local participant's color, and exactly one
`Ack{ok: true}` (and no `Move` packet) otherwise — a move is never echoed
back to its sender. -/
theorem c5_move_vs_ack_dispatch {B : Type} (E : Engine B) (s : MainState B)
    (mv : MoveKind) (c : ChessColor) (s' : MainState B)
    (sent : List PacketType)
    (hnet : s.player_handler.network = true)
    (hloc : s.player_handler.one_local = some c)
    (hvalid : ∃ b1 st,
      E.move_piece s.board mv.getFrom mv.getTo = (b1, ValidationResult.Valid st))
    (hrun : client_validate E s mv = some (s', sent)) :
    (c = E.turn s.board → sent = [movePacketOf mv]) ∧
    (c ≠ E.turn s.board →
      ∃ es, sent = [PacketType.Ack { ok := true, end_state := es }]) := by
  obtain ⟨b1, st, hmp⟩ := hvalid
  simp only [client_validate, hmp] at hrun
  rcases hps : promoStep E b1 st mv with _ | ⟨b2, status⟩ <;>
    rw [hps] at hrun
  · simp at hrun
  · simp only [Option.some.injEq, Prod.mk.injEq] at hrun
    obtain ⟨-, hsent⟩ := hrun
    rw [hnet, hloc] at hsent
    simp only [if_true] at hsent
    constructor
    · intro hc
      rw [if_pos (by rw [hc])] at hsent
      exact hsent.symm
    · intro hc
      rw [if_neg (by simpa using hc)] at hsent
      exact ⟨endStateOf status, hsent.symm⟩

/-- C5 witness: on a concrete Host-mode state whose sole local participant is
White and whose board has White to move, a validated network-decoded move is
relayed as exactly one `Move` packet. -/
theorem c5_witness :
    ChessColor.White = toyEngine.turn sampleState.board ∧
    (client_validate toyEngine sampleState (MoveKind.Network nm0)).map
        Prod.snd = some [movePacketOf (MoveKind.Network nm0)] := by
  have h := (c5_move_vs_ack_dispatch toyEngine sampleState
      (MoveKind.Network nm0) ChessColor.White
      { sampleState with
          board := 1
          phase := Phase.Move
          selected_square := none
          current_moves := none }
      [movePacketOf (MoveKind.Network nm0)] rfl rfl
      ⟨1, Status.InProgress, rfl⟩ rfl).1 rfl
  refine ⟨rfl, ?_⟩
  rw [show client_validate toyEngine sampleState (MoveKind.Network nm0) =
    some ({ sampleState with
        board := 1
        phase := Phase.Move
        selected_square := none
        current_moves := none },
      [movePacketOf (MoveKind.Network nm0)]) from rfl]
  rw [Option.map_some', h]

/-- C6: when the rules engine rejects the candidate in validation, the
coordinator discards it, sends `Ack{ok: false}` — carrying no end state —
exactly when a network peer exists, and returns to the input-awaiting phase. -/
theorem c6_rejection_ack_and_phase {B : Type} (E : Engine B) (s : MainState B)
    (mv : MoveKind) (b1 : B)
    (hmp : E.move_piece s.board mv.getFrom mv.getTo =
      (b1, ValidationResult.Invalid)) :
    client_validate E s mv =
      some ({ s with board := b1, phase := Phase.Move, selected_square := none },
        if s.player_handler.network then
          [PacketType.Ack { ok := false, end_state := none }]
        else []) := by
  simp [client_validate, hmp]

/-- C6 witness: the rejection theorem evaluated on a concrete networked state
with the rejecting engine: the candidate is dropped, the phase returns to
`Move`, and a single `Ack{ok: false}` without end state is sent. -/
theorem c6_witness :
    rejectEngine.move_piece sampleState.board (MoveKind.Builtin mv0).getFrom
        (MoveKind.Builtin mv0).getTo = (0, ValidationResult.Invalid) ∧
    client_validate rejectEngine sampleState (MoveKind.Builtin mv0) =
      some ({ sampleState with
          board := 0
          phase := Phase.Move
          selected_square := none },
        [PacketType.Ack { ok := false, end_state := none }]) :=
  ⟨rfl, c6_rejection_ack_and_phase rejectEngine sampleState
    (MoveKind.Builtin mv0) 0 rfl⟩

/-- C8: for a locally-authored (`Builtin`) move, the promotion piece this side
applies is always Queen regardless of any user choice, the `Move` packet sent
to the peer always carries `promotion = Some(Queen)`, and when a promotion is
pending the board update applies the Queen promotion — the locally-chosen
piece is never transmitted. -/
theorem c8_local_promotion_always_queen {B : Type} (E : Engine B)
    (s : MainState B) (m : ChessMove) (b1 : B) (st : Status)
    (s' : MainState B) (sent : List PacketType)
    (hnet : s.player_handler.network = true)
    (hloc : s.player_handler.one_local = some (E.turn s.board))
    (hmp : E.move_piece s.board (MoveKind.Builtin m).getFrom
        (MoveKind.Builtin m).getTo = (b1, ValidationResult.Valid st))
    (hrun : client_validate E s (MoveKind.Builtin m) = some (s', sent)) :
    (MoveKind.Builtin m).promotion = PieceType.Queen ∧
    sent = [PacketType.Move
      { fromSq := (m.from_.x % 256, m.from_.y % 256)
        toSq := (m.to_.x % 256, m.to_.y % 256)
        promotion := some PromotionPiece.Queen
        forfeit := false
        offer_draw := false }] ∧
    (E.status b1 = Status.AwaitingPromotion →
      s'.board = (E.promote_piece b1 PieceType.Queen).1) := by
  simp only [client_validate, hmp] at hrun
  rcases hps : promoStep E b1 st (MoveKind.Builtin m) with _ | ⟨b2, status⟩ <;>
    rw [hps] at hrun
  · simp at hrun
  · simp only [Option.some.injEq, Prod.mk.injEq] at hrun
    obtain ⟨hs', hsent⟩ := hrun
    refine ⟨rfl, ?_, ?_⟩
    · rw [hnet, hloc] at hsent
      simp only [if_true, if_pos rfl] at hsent
      rw [← hsent]
      simp [movePacketOf, MoveKind.getFrom, MoveKind.getTo]
    · intro hpr
      have hb := promoStep_awaiting E b1 st (MoveKind.Builtin m) b2 status hpr hps
      rw [← hs']
      simpa [MoveKind.promotion] using hb.symm

/-- C8 witness: a concrete locally-authored move relayed from the sample Host
state always goes out with `promotion = Some(Queen)`. -/
theorem c8_witness :
    (MoveKind.Builtin mv0).promotion = PieceType.Queen ∧
    (client_validate toyEngine sampleState (MoveKind.Builtin mv0)).map
        Prod.snd =
      some [PacketType.Move
        { fromSq := (0, 7), toSq := (0, 5),
          promotion := some PromotionPiece.Queen,
          forfeit := false, offer_draw := false }] := by
  have h := c8_local_promotion_always_queen toyEngine sampleState mv0 1
      Status.InProgress
      { sampleState with
          board := 1
          phase := Phase.Move
          selected_square := none
          current_moves := none }
      [movePacketOf (MoveKind.Builtin mv0)] rfl rfl rfl rfl
  refine ⟨h.1, ?_⟩
  rw [show client_validate toyEngine sampleState (MoveKind.Builtin mv0) =
    some ({ sampleState with
        board := 1
        phase := Phase.Move
        selected_square := none
        current_moves := none },
      [movePacketOf (MoveKind.Builtin mv0)]) from rfl]
  simpa using h.2.1

/-- Helper: the tail refresh of `update` does not change the phase. -/
theorem refreshMoves_phase {B : Type} (E : Engine B) (s : MainState B) :
    (refreshMoves E s).phase = s.phase := by
  unfold refreshMoves
  split <;> rfl

/-- Helper: the tail refresh of `update` does not change the board. -/
theorem refreshMoves_board {B : Type} (E : Engine B) (s : MainState B) :
    (refreshMoves E s).board = s.board := by
  unfold refreshMoves
  split <;> rfl

/-- Helper: the tail refresh of `update` does not change the player handler. -/
theorem refreshMoves_player_handler {B : Type} (E : Engine B)
    (s : MainState B) :
    (refreshMoves E s).player_handler = s.player_handler := by
  unfold refreshMoves
  split <;> rfl

/-- Concrete ended Host-mode state used for the rematch analysis. -/
def c9End : MainState Nat :=
  { board := 5
    current_moves := some (fun _ => [])
    selected_square := none
    text_prompt := none
    player_handler := PlayerHandler.new (GameType.Host "a") initStart
    phase := Phase.End (Status.Checkmate ChessColor.Black) }

/-- Rematch input carrying a fresh peer `Start` packet with a display name. -/
def c9inp : Input :=
  { mouse_pressed := false
    clicked := none
    net_packet := none
    space_pressed := true
    neg_start :=
      { name := some "x", is_white := true, fen := none, time := none,
        inc := none } }

/-- C9 counterexample: on rematch the source calls `network.init()` but
discards the returned `Players`; the session keeps its old player set, which
differs from the one the re-run negotiation produces from the newly received
`Start` (the peer's fresh display name is lost), where the claim says the
player set is replaced wholesale by the re-run negotiation's product. -/
theorem c9_players_not_replaced_counterexample :
    (update toyEngine c9End c9inp).map (fun p => p.1.player_handler.players) =
      some (hostNegotiate initStart) ∧
    hostNegotiate initStart ≠ hostNegotiate c9inp.neg_start := by
  constructor
  · rfl
  · decide

/-- C9 (amended): on rematch in a networked session the negotiator is
re-invoked (the handshake `Start` packet is sent again and negotiation runs)
and the board and phase are reset, but the negotiation's resulting player set
is discarded: the session keeps its previous `player_handler` unchanged. -/
theorem c9_rematch_renegotiates_but_keeps_players {B : Type} (E : Engine B)
    (s : MainState B) (inp : Input) (st : Status)
    (hph : s.phase = Phase.End st)
    (hsp : inp.space_pressed = true)
    (hnet : s.player_handler.network = true) :
    ∃ s' out, update E s inp = some (s', out) ∧
      out.negotiated = true ∧ out.sent = [PacketType.Start initStart] ∧
      s'.player_handler = s.player_handler ∧ s'.phase = Phase.Move ∧
      s'.board = E.new := by
  refine ⟨refreshMoves E
      { s with
          text_prompt := none
          board := E.new
          current_moves := none
          phase := Phase.Move },
    { sent := [PacketType.Start initStart], negotiated := true },
    ?_, rfl, rfl, ?_, ?_, ?_⟩
  · simp [update, updateCore, hph, hsp, hnet]
  · rw [refreshMoves_player_handler]
  · rw [refreshMoves_phase]
  · rw [refreshMoves_board]

/-- C9 witness: the amended rematch theorem evaluated on the concrete ended
Host-mode state and rematch input. -/
theorem c9_witness :
    c9End.phase = Phase.End (Status.Checkmate ChessColor.Black) ∧
    c9inp.space_pressed = true ∧
    c9End.player_handler.network = true ∧
    (∃ s' out, update toyEngine c9End c9inp = some (s', out) ∧
      out.negotiated = true ∧ out.sent = [PacketType.Start initStart] ∧
      s'.player_handler = c9End.player_handler ∧ s'.phase = Phase.Move ∧
      s'.board = toyEngine.new) :=
  ⟨rfl, rfl, rfl,
    c9_rematch_renegotiates_but_keeps_players toyEngine c9End c9inp
      (Status.Checkmate ChessColor.Black) rfl rfl rfl⟩

/-- Helper: in a networked mode, `can_move` is exactly the locality of the
participant holding the given color. -/
theorem can_move_nonlocal (ph : PlayerHandler) (c : ChessColor)
    (h : ph.game_type ≠ GameType.Local) :
    ph.can_move c = (ph.players.get_player c).local_ := by
  unfold PlayerHandler.can_move
  rcases hg : ph.game_type with _ | a | a
  · exact absurd hg h
  · rfl
  · rfl

/-- Helper: `client_move` never touches the board or the player handler, and
it changes the phase only to a locally-authored pending candidate, which it
does only after `can_move` approved the current turn's color. -/
theorem client_move_spec {B : Type} (E : Engine B) (s : MainState B)
    (inp : Input) (s' : MainState B) (h : client_move E s inp = some s') :
    s'.board = s.board ∧ s'.player_handler = s.player_handler ∧
      (s'.phase = s.phase ∨
        (s.player_handler.can_move (E.turn s.board) = true ∧
          ∃ m, s'.phase = Phase.Validate (MoveKind.Builtin m))) := by
  unfold client_move at h
  split at h
  · injection h with h
    subst h
    exact ⟨rfl, rfl, Or.inl rfl⟩
  · rename_i hcm
    simp only [Bool.not_eq_false] at hcm
    split at h
    · injection h with h
      subst h
      exact ⟨rfl, rfl, Or.inl rfl⟩
    · split at h
      · injection h with h
        subst h
        exact ⟨rfl, rfl, Or.inl rfl⟩
      · split at h
        · split at h
          · injection h with h
            subst h
            exact ⟨rfl, rfl, Or.inl rfl⟩
          · split at h
            · simp at h
            · split at h
              · rename_i mv hfind
                injection h with h
                subst h
                exact ⟨rfl, rfl, Or.inr ⟨hcm, mv, rfl⟩⟩
              · injection h with h
                subst h
                exact ⟨rfl, rfl, Or.inl rfl⟩
        · injection h with h
          subst h
          exact ⟨rfl, rfl, Or.inl rfl⟩

/-- Helper: `network_move` never touches the board or the player handler, and
changes the phase only to a network-sourced pending candidate. -/
theorem network_move_spec {B : Type} (s : MainState B) (inp : Input) :
    (network_move s inp).board = s.board ∧
    (network_move s inp).player_handler = s.player_handler ∧
    ((network_move s inp).phase = s.phase ∨
      ∃ nm, (network_move s inp).phase = Phase.Validate (MoveKind.Network nm)) := by
  unfold network_move
  split
  · rcases hpk : inp.net_packet with _ | pk
    · exact ⟨rfl, rfl, Or.inl rfl⟩
    · cases pk with
      | Start st => exact ⟨rfl, rfl, Or.inl rfl⟩
      | Move mv => exact ⟨rfl, rfl, Or.inr ⟨mv, rfl⟩⟩
      | Ack a => exact ⟨rfl, rfl, Or.inl rfl⟩
  · exact ⟨rfl, rfl, Or.inl rfl⟩

/-- Helper: a successful `client_validate` leaves the coordinator in the
input-awaiting phase or in an ended phase, never in a pending-validation
phase. -/
theorem client_validate_phase_shape {B : Type} (E : Engine B)
    (s : MainState B) (mv : MoveKind) (s' : MainState B)
    (sent : List PacketType) (h : client_validate E s mv = some (s', sent)) :
    s'.phase = Phase.Move ∨ ∃ st, s'.phase = Phase.End st := by
  rcases hmp : E.move_piece s.board mv.getFrom mv.getTo with ⟨b1, vr⟩
  cases vr with
  | Invalid =>
      simp only [client_validate, hmp, Option.some.injEq, Prod.mk.injEq] at h
      obtain ⟨hs', -⟩ := h
      subst hs'
      exact Or.inl rfl
  | Valid status0 =>
      simp only [client_validate, hmp] at h
      rcases hps : promoStep E b1 status0 mv with _ | ⟨b2, status⟩ <;>
        rw [hps] at h
      · simp at h
      · simp only [Option.some.injEq, Prod.mk.injEq] at h
        obtain ⟨hs', -⟩ := h
        subst hs'
        dsimp only
        split
        · exact Or.inr ⟨_, rfl⟩
        · exact Or.inl rfl

/-- Helper: when the phase dispatch ran `client_move` and the tick ends with a
locally-authored candidate pending, the current turn's participant is local
(`client_move` only creates a `Builtin` candidate after `can_move` approved
the current turn's color). -/
theorem client_move_mapped_local {B : Type} (E : Engine B) (s0 : MainState B)
    (inp : Input) (s2 : MainState B) (out2 : Output)
    (hgt : s2.player_handler.game_type ≠ GameType.Local)
    (m : ChessMove) (hph : s2.phase = Phase.Validate (MoveKind.Builtin m))
    (hph0 : s0.phase = Phase.Move)
    (hcore : (client_move E s0 inp).map
        (fun s' => (s', ({ sent := [], negotiated := false } : Output))) =
      some (s2, out2)) :
    (s2.player_handler.players.get_player (E.turn s2.board)).local_ = true := by
  rcases hcm : client_move E s0 inp with _ | s3 <;> rw [hcm] at hcore
  · simp at hcore
  · simp only [Option.map_some', Option.some.injEq] at hcore
    obtain ⟨hs2, -⟩ := Prod.ext_iff.mp hcore
    subst hs2
    obtain ⟨hb, hph2, hsh⟩ := client_move_spec E s0 inp s3 hcm
    rw [hb, hph2]
    rw [hph2] at hgt
    rcases hsh with hsame | ⟨hcanm, -⟩
    · rw [hsame, hph0] at hph
      exact Phase.noConfusion hph
    · rw [← can_move_nonlocal _ _ hgt]
      exact hcanm

/-- Helper: any single update tick that ends with a locally-authored
(`Builtin`) candidate pending validation has, in a networked mode, a local
participant holding the board's current turn color. -/
theorem step_builtin_validate_local {B : Type} (E : Engine B)
    {s0 s1 : MainState B} {inp : Input} {out : Output}
    (hstep : update E s0 inp = some (s1, out))
    (hgt : s1.player_handler.game_type ≠ GameType.Local)
    (m : ChessMove) (hph : s1.phase = Phase.Validate (MoveKind.Builtin m)) :
    (s1.player_handler.players.get_player (E.turn s1.board)).local_ = true := by
  unfold update at hstep
  rcases hcore : updateCore E s0 inp with _ | ⟨s2, out2⟩ <;>
    rw [hcore] at hstep
  · simp at hstep
  · simp only [Option.map_some', Option.some.injEq] at hstep
    obtain ⟨hs1, -⟩ := Prod.ext_iff.mp hstep
    subst hs1
    rw [refreshMoves_player_handler, refreshMoves_board]
    rw [refreshMoves_phase] at hph
    rw [refreshMoves_player_handler] at hgt
    obtain ⟨b0, cm0, ss0, tp0, ph0, phase0⟩ := s0
    cases phase0 with
    | Move =>
        simp only [updateCore] at hcore
        by_cases hbl : ph0.both_local = true
        · rw [if_pos hbl] at hcore
          exact client_move_mapped_local E _ inp s2 out2 hgt m hph rfl hcore
        · rw [if_neg hbl] at hcore
          by_cases hol : ph0.one_local = some (E.turn b0)
          · rw [if_pos hol] at hcore
            exact client_move_mapped_local E _ inp s2 out2 hgt m hph rfl hcore
          · rw [if_neg hol] at hcore
            simp only [Option.some.injEq] at hcore
            obtain ⟨hs2, -⟩ := Prod.ext_iff.mp hcore
            subst hs2
            obtain ⟨-, -, hsh⟩ :=
              network_move_spec
                (MainState.mk b0 cm0 ss0 tp0 ph0 Phase.Move) inp
            rcases hsh with hsame | ⟨nm, hnm⟩
            · rw [hsame] at hph
              exact Phase.noConfusion hph
            · rw [hnm] at hph
              simp at hph
    | Validate mv0 =>
        simp only [updateCore] at hcore
        rcases hcv : client_validate E
            (MainState.mk b0 cm0 ss0 tp0 ph0 (Phase.Validate mv0)) mv0 with
          _ | ⟨s3, sent⟩ <;> rw [hcv] at hcore
        · simp at hcore
        · simp only [Option.map_some', Option.some.injEq] at hcore
          obtain ⟨hs2, -⟩ := Prod.ext_iff.mp hcore
          subst hs2
          rcases client_validate_phase_shape E _ mv0 s3 sent hcv with
            hmv | ⟨st, hst⟩
          · rw [hmv] at hph
            exact Phase.noConfusion hph
          · rw [hst] at hph
            exact Phase.noConfusion hph
    | End st0 =>
        simp only [updateCore] at hcore
        by_cases hsp : inp.space_pressed = true
        · rw [if_pos hsp] at hcore
          simp only [Option.some.injEq] at hcore
          obtain ⟨hs2, -⟩ := Prod.ext_iff.mp hcore
          subst hs2
          simp at hph
        · rw [if_neg hsp] at hcore
          simp only [Option.some.injEq] at hcore
          obtain ⟨hs2, -⟩ := Prod.ext_iff.mp hcore
          subst hs2
          simp at hph

/-- C3: in Hosting/Joining mode, for every reachable state of the update loop,
a locally-sourced candidate is pending validation (and hence submitted to the
rules engine in that tick) only when the participant holding the board's
current turn color is local — the coordinator never enters validation from
local input while the current turn's participant is remote. -/
theorem c3_local_validation_requires_local_turn {B : Type} (E : Engine B)
    (s : MainState B) (hr : Reachable E s)
    (hgt : s.player_handler.game_type ≠ GameType.Local)
    (m : ChessMove) (hph : s.phase = Phase.Validate (MoveKind.Builtin m)) :
    (s.player_handler.players.get_player (E.turn s.board)).local_ = true := by
  cases hr with
  | init gt negStart => simp [initialState] at hph
  | step hprev hstep => exact step_builtin_validate_local E hstep hgt m hph

/-- Initial Host-mode state used by the C3 witness run. -/
def c3s0 : MainState Nat := initialState toyEngine (GameType.Host "a") initStart

/-- Witness state after the first tick: a square was clicked and selected. -/
def c3s1 : MainState Nat :=
  { c3s0 with
      current_moves := some (toyEngine.generate_valid_moves 0)
      selected_square := some (0, 7) }

/-- Witness state after the second tick: a locally-authored candidate is
pending validation. -/
def c3s2 : MainState Nat :=
  { c3s1 with phase := Phase.Validate (MoveKind.Builtin mv0) }

/-- First tick input of the C3 witness: click on the square that maps to the
selected square after the reverse adjustment. -/
def inpClick1 : Input :=
  { mouse_pressed := true, clicked := some (0, 0), net_packet := none,
    space_pressed := false, neg_start := initStart }

/-- Second tick input of the C3 witness: click on a legal destination. -/
def inpClick2 : Input :=
  { mouse_pressed := true, clicked := some (0, 2), net_packet := none,
    space_pressed := false, neg_start := initStart }

/-- C3 witness: a concrete two-tick reachable Host-mode run that ends with a
locally-authored candidate pending, where the theorem yields that the player
of the current turn is local. -/
theorem c3_witness :
    c3s2.player_handler.game_type ≠ GameType.Local ∧
    c3s2.phase = Phase.Validate (MoveKind.Builtin mv0) ∧
    (c3s2.player_handler.players.get_player
      (toyEngine.turn c3s2.board)).local_ = true := by
  have h0 : Reachable toyEngine c3s0 :=
    Reachable.init (GameType.Host "a") initStart
  have h1 : Reachable toyEngine c3s1 :=
    Reachable.step h0 (show update toyEngine c3s0 inpClick1 =
      some (c3s1, { sent := [], negotiated := false }) from rfl)
  have h2 : Reachable toyEngine c3s2 :=
    Reachable.step h1 (show update toyEngine c3s1 inpClick2 =
      some (c3s2, { sent := [], negotiated := false }) from rfl)
  exact ⟨by decide, rfl,
    c3_local_validation_requires_local_turn toyEngine c3s2 h2 (by decide)
      mv0 rfl⟩

end DexChess
